import Mathlib

/-!
Verification of the IAMC CSV reshaping pipeline (`converter-long.py`).

The pipeline's tables are embedded row-major: a `DF` is a header (a list of
column labels) together with a list of rows, each row a list of cells.
Cells and column labels share one value type `Val`: pandas cells are either
strings, integers (`read_csv` parses integer-looking cells to int64), or
missing (`NaN`); pivoting turns cell values into column labels, so labels
range over the same type.
-/

/-- Code-point comparison of characters, the order underlying Python and
pandas string comparison. -/
def charLtb (a b : Char) : Bool := a.toNat < b.toNat

/-- Lexicographic strict order on lists induced by a strict order on the
elements. -/
def lexLtb {α : Type} [DecidableEq α] (lt : α → α → Bool) : List α → List α → Bool
  | [], [] => false
  | [], _ :: _ => true
  | _ :: _, [] => false
  | a :: as, b :: bs => if a = b then lexLtb lt as bs else lt a b

/-- Python/pandas string comparison: lexicographic by code point. -/
def strLtb (a b : String) : Bool := lexLtb charLtb a.data b.data

/-- A pandas cell / column-label value: a string, an integer, or `NaN`
(missing).  CSV parsing produces strings and integers; `NaN` arises from
reindexing and from pivot holes. -/
inductive Val where
  | vStr : String → Val
  | vInt : Int → Val
  | vNaN : Val
deriving DecidableEq, Repr

namespace Val

/-- Python `str(...)` as applied by `.astype(str)`: strings unchanged,
integers printed in decimal, `NaN` printed as `"nan"`. -/
def pyStr : Val → String
  | vStr s => s
  | vInt n => toString n
  | vNaN => "nan"

/-- Whether the value is a Python `str`. -/
def isStr : Val → Bool
  | vStr _ => true
  | _ => false

/-- Strict comparison used by pandas when sorting pivot keys and pivot
columns.  Strings compare lexicographically and integers numerically,
matching pandas sorting of homogeneous object columns; `NaN` sorts last
(pandas places missing keys last).  Mixed int/string keys make pandas
raise, so their relative order is never exercised by the pipeline; the
embedding still totalises the order (ints before strings) so that sorting
is well defined. -/
def ltb : Val → Val → Bool
  | vInt a, vInt b => decide (a < b)
  | vStr a, vStr b => strLtb a b
  | vInt _, vStr _ => true
  | vInt _, vNaN => true
  | vStr _, vNaN => true
  | vStr _, vInt _ => false
  | vNaN, _ => false

end Val

/-- Lexicographic strict order on row-identity keys (lists of cell
values), as pandas orders a `MultiIndex`. -/
def keyLtb : List Val → List Val → Bool := lexLtb Val.ltb

/-- A dataframe: ordered column labels and row-major cells. -/
structure DF where
  header : List Val
  rows : List (List Val)
deriving DecidableEq, Repr

namespace DF

/-- Row count. -/
def nrows (df : DF) : Nat := df.rows.length

/-- Every row has exactly one cell per column. -/
def WF (df : DF) : Prop := ∀ r ∈ df.rows, r.length = df.header.length

/-- Position of a column label in the header (pandas `df[label]` picks the
first matching column; headers are assumed duplicate-free where it
matters). -/
def colIdx (df : DF) (label : Val) : Nat := df.header.indexOf label

/-- The cell of row `r` in the column labelled `label`. -/
def cellOf (df : DF) (r : List Val) (label : Val) : Val :=
  r.getD (df.colIdx label) Val.vNaN

/-- One column of the dataframe, top to bottom: pandas `df[label]`. -/
def col (df : DF) (label : Val) : List Val :=
  df.rows.map (fun r => df.cellOf r label)

end DF

/-- Python string slicing `s[:-1]`: drop the final character (identity on
the empty string). -/
def strDropLast (s : String) : String := ⟨s.data.dropLast⟩

/-- `create_breadcrumbs(from_df, in_label_series)` from the source: start
from a series of empty strings (one per row), then for each selected label
append that column stringified plus a `'|'`, and finally strip the last
character of every row's string (`.str[:-1]`). -/
def create_breadcrumbs (from_df : DF) (in_label_series : List Val) : List String :=
  (in_label_series.foldl
      (fun acc label => acc.zipWith (fun s v => s ++ v.pyStr ++ "|") (from_df.col label))
      (from_df.rows.map (fun _ => ""))).map strDropLast

/-- The spec's description of breadcrumbing a row: stringify the selected
values and join them with `'|'`, with no trailing separator. -/
def joinBar : List String → String
  | [] => ""
  | [s] => s
  | s :: rest => s ++ "|" ++ joinBar rest

/-- `map_input(label, available_columns)` from the source, with the two
widget readings (`st.checkbox`, and `st.text_input` / `st.multiselect`)
passed in as parameters: with the static checkbox ticked it returns
`(None, static_text)`, otherwise `(selected_cols, None)`. -/
def map_input (use_static : Bool) (static_text : String) (selected_cols : List Val) :
    Option (List Val) × Option String :=
  if use_static then (none, some static_text) else (some selected_cols, none)

/-- Python truthiness of an optional string (`None` and `""` are falsy). -/
def truthyStr : Option String → Bool
  | none => false
  | some s => s ≠ ""

/-- Python truthiness of an optional list (`None` and `[]` are falsy). -/
def truthyList : Option (List Val) → Bool
  | none => false
  | some l => l ≠ []

/-- Pandas assignment of a series with index `0..N-1` into a dataframe
whose index is `0..n-1` (with `n ≤ N` in this pipeline): alignment by
index label keeps the first `n` values; labels past the series' end fill
with `NaN`. -/
def alignTo (n : Nat) (xs : List Val) : List Val :=
  xs.take n ++ List.replicate (n - xs.length) Val.vNaN

/-- One identifier field of the `Transform DataFrame` step.  The target
frame was reindexed to the year table's `n`-row index, so the column
starts as all-`NaN`; then `if <field>_text: ... elif <field>_cols: ...`
assigns either the literal (broadcast to every row) or the breadcrumbs of
the ORIGINAL dataframe `df`, index-aligned to the `n`-row frame. -/
def assignField (df : DF) (n : Nat) (cols : Option (List Val)) (text : Option String) :
    List Val :=
  if truthyStr text then List.replicate n (Val.vStr (text.getD ""))
  else if truthyList cols then
    alignTo n ((create_breadcrumbs df (cols.getD [])).map Val.vStr)
  else List.replicate n Val.vNaN

/-- One record of `pycountry`'s ISO 3166-1 database. -/
structure Country where
  alpha2 : String
  alpha3 : String
  numeric : String
  name : String
deriving DecidableEq, Repr

/-- A fragment of the ISO 3166-1 database behind `pycountry.countries`,
restricted to the entries the theorems touch.  Every record carries the
real codes; in particular — as in the full database — every `alpha3` code
is purely alphabetic, so no digit string matches an `alpha3` entry. -/
def countryTable : List Country :=
  [⟨"US", "USA", "840", "United States"⟩,
   ⟨"AF", "AFG", "004", "Afghanistan"⟩,
   ⟨"DE", "DEU", "276", "Germany"⟩,
   ⟨"GR", "GRC", "300", "Greece"⟩]

/-- `pycountry.countries.get(alpha_2=c)`: exact match on the alpha-2
field, `None` when absent. -/
def getAlpha2 (c : String) : Option Country :=
  countryTable.find? (fun e => e.alpha2 = c)

/-- `pycountry.countries.get(alpha_3=c)`. -/
def getAlpha3 (c : String) : Option Country :=
  countryTable.find? (fun e => e.alpha3 = c)

/-- `pycountry.countries.get(numeric=c)`. -/
def getNumeric (c : String) : Option Country :=
  countryTable.find? (fun e => e.numeric = c)

/-- Python `str.upper()` on the ASCII strings the pipeline handles:
uppercase every character. -/
def pyUpper (s : String) : String := ⟨s.data.map Char.toUpper⟩

/-- Python `str.isdigit()` (ASCII digits; the pipeline's region cells are
ASCII): true iff the string is non-empty and all characters are digits. -/
def pyIsDigit (s : String) : Bool :=
  s ≠ "" && s.data.all Char.isDigit

/-- Python `str.zfill(n)`: left-pad with `'0'` to length `n`. -/
def zfill (n : Nat) (s : String) : String :=
  ⟨List.replicate (n - s.data.length) '0' ++ s.data⟩

/-- The body of `convert_iso_to_country_name`'s `try:` block.  On a
non-string value, `len(iso_code)` raises `TypeError`, modelled as
`Except.error`; on a string the if/elif chain runs: length 2 → alpha-2
lookup of the uppercased input (ASCII uppercase), else length 3 → alpha-3 lookup, else
all-digit → numeric lookup of the 3-zero-filled input, else return the
input; a lookup that finds no country returns the input. -/
def convertBody : Val → Except Unit Val
  | Val.vStr s =>
      if s.length = 2 then
        Except.ok (match getAlpha2 (pyUpper s) with
          | some c => Val.vStr c.name
          | none => Val.vStr s)
      else if s.length = 3 then
        Except.ok (match getAlpha3 (pyUpper s) with
          | some c => Val.vStr c.name
          | none => Val.vStr s)
      else if pyIsDigit s then
        Except.ok (match getNumeric (zfill 3 s) with
          | some c => Val.vStr c.name
          | none => Val.vStr s)
      else Except.ok (Val.vStr s)
  | _ => Except.error ()

/-- `convert_iso_to_country_name(iso_code)` from the source: the `try:`
body with the bare `except:` returning the input unchanged. -/
def convert_iso_to_country_name (v : Val) : Val :=
  match convertBody v with
  | Except.ok r => r
  | Except.error _ => v

/-- The pipeline's Region column: the identifier-field assignment followed
by the unconditional `transformed_df['Region'].apply(convert_iso_to_country_name)`. -/
def regionColumn (df : DF) (n : Nat) (cols : Option (List Val)) (text : Option String) :
    List Val :=
  (assignField df n cols text).map convert_iso_to_country_name

/-- Insert `x` into a sorted duplicate-free list ordered by the strict
comparison `lt`, skipping `x` when already present. -/
def insertBy {α : Type} [DecidableEq α] (lt : α → α → Bool) (x : α) : List α → List α
  | [] => [x]
  | h :: t =>
      if x = h then h :: t
      else if lt x h then x :: h :: t
      else h :: insertBy lt x t

/-- The sorted list of the distinct elements of a list under `lt`.  This
is how pandas forms the level values of an index built from data columns:
`Categorical` factorisation keeps the distinct values sorted ascending. -/
def sortDedupBy {α : Type} [DecidableEq α] (lt : α → α → Bool) : List α → List α
  | [] => []
  | x :: xs => insertBy lt x (sortDedupBy lt xs)

/-- The row-identity key of row `r`: its cells at the `index` labels, in
`restLabels` order. -/
def keyOf (df : DF) (restLabels : List Val) (r : List Val) : List Val :=
  restLabels.map (fun l => df.cellOf r l)

/-- The index of `df.pivot(index=restLabels, ...)`: the sorted distinct
identity-key tuples. -/
def pivotKeys (df : DF) (restLabels : List Val) : List (List Val) :=
  sortDedupBy keyLtb (df.rows.map (keyOf df restLabels))

/-- The columns of `df.pivot(..., columns=yearCol, ...)`: the sorted
distinct values of the year column. -/
def pivotYears (df : DF) (yearCol : Val) : List Val :=
  sortDedupBy Val.ltb (df.col yearCol)

/-- One pivot cell: the `valueCol` entry of the first row whose identity
key is `k` and whose `yearCol` entry is `y`; `NaN` when no row matches.
(`DataFrame.pivot` raises on duplicate `(key, year)` pairs — a case the
spec leaves undefined — so on pivot's domain the first match is the only
match.) -/
def pivotCell (df : DF) (restLabels : List Val) (yearCol valueCol : Val)
    (k : List Val) (y : Val) : Val :=
  match df.rows.find? (fun r =>
      decide (keyOf df restLabels r = k) && decide (df.cellOf r yearCol = y)) with
  | some r => df.cellOf r valueCol
  | none => Val.vNaN

/-- `df.pivot(index=rest_labels, columns=year_column, values=value_column)`
followed by `reset_index(drop=True)` — the row-mode `Transform Year
Columns` step: the identity keys become the (dropped) index, the sorted
distinct year values become the columns. -/
def pivotDF (df : DF) (restLabels : List Val) (yearCol valueCol : Val) : DF :=
  { header := pivotYears df yearCol,
    rows := (pivotKeys df restLabels).map (fun k =>
      (pivotYears df yearCol).map (pivotCell df restLabels yearCol valueCol k)) }

/-- The same pivot with the identity keys kept as leading columns (the
index not dropped), as in the spec's round trip pivoting the long table
back on `Year`. -/
def pivotFull (df : DF) (restLabels : List Val) (yearCol valueCol : Val) : DF :=
  { header := restLabels ++ pivotYears df yearCol,
    rows := (pivotKeys df restLabels).map (fun k =>
      k ++ (pivotYears df yearCol).map (pivotCell df restLabels yearCol valueCol k)) }

/-- `df[year_columns]` — the column-mode `Transform Year Columns` step:
select the listed columns verbatim, keeping every row. -/
def selectCols (df : DF) (labels : List Val) : DF :=
  { header := labels, rows := df.rows.map (fun r => labels.map (df.cellOf r)) }

/-- `pd.concat([a, b], axis=1)` on two frames with plain `0..n-1` indexes,
plus the following `reset_index(drop=True)` — the `Transform to IAMC
Format` step: the result's index is the union `0..max-1`, and a frame
with fewer rows contributes `NaN` in its columns at the missing labels
(pandas pads; it does not raise). -/
def concatCols (a b : DF) : DF :=
  { header := a.header ++ b.header,
    rows := (List.range (max a.nrows b.nrows)).map (fun i =>
      a.rows.getD i (List.replicate a.header.length Val.vNaN) ++
      b.rows.getD i (List.replicate b.header.length Val.vNaN)) }

/-- The source's `expected_id_vars`, in order. -/
def expected5 : List Val :=
  [Val.vStr "Model", Val.vStr "Scenario", Val.vStr "Region", Val.vStr "Variable",
   Val.vStr "Unit"]

/-- `id_vars`: the expected identifier labels actually present in the frame. -/
def meltIdVars (df : DF) : List Val :=
  expected5.filter (fun c => df.header.contains c)

/-- `year_columns`: every other column, in header order. -/
def meltYearCols (df : DF) : List Val :=
  df.header.filter (fun c => !(meltIdVars df).contains c)

/-- `df.melt(id_vars=id_vars, var_name='Year', value_name='Value')`:
column-major stacking — for each value column in turn, one output row per
input row, carrying the identifier cells, the value column's label
verbatim as `Year`, and the cell as `Value`. -/
def meltDF (df : DF) : DF :=
  { header := meltIdVars df ++ [Val.vStr "Year", Val.vStr "Value"],
    rows := (meltYearCols df).flatMap (fun y => df.rows.map (fun r =>
      (meltIdVars df).map (df.cellOf r) ++ [y, df.cellOf r y])) }

/-- The `Transform to Long Format` button: refuse (`st.error`, no output
committed) when no identifier column or no year column is present, else
melt. -/
def longTransform (df : DF) : Option DF :=
  if meltIdVars df = [] ∨ meltYearCols df = [] then none else some (meltDF df)

/-- The spec's required value for a breadcrumbed identifier field at a
pivot row: the breadcrumb computed over that row's distinct post-pivot
identity key (`restLabels` ↦ `k`), restricted to the selected columns. -/
def keyBreadcrumb (restLabels cols : List Val) (k : List Val) : String :=
  joinBar (cols.map (fun c => (k.getD (restLabels.indexOf c) Val.vNaN).pyStr))

/-- The raw text the breadcrumb fold appends to a row: each selected cell
stringified and followed by the separator (proof helper characterising
the fold). -/
def barTail (df : DF) (row : List Val) : List Val → String
  | [] => ""
  | l :: ls => (df.cellOf row l).pyStr ++ "|" ++ barTail df row ls

/-- A row-mode source table: columns (id, year, val) with rows
(b,2010,1), (b,2020,2), (a,2010,3). -/
def rowModeSample : DF :=
  ⟨[Val.vStr "id", Val.vStr "year", Val.vStr "val"],
   [[Val.vStr "b", Val.vInt 2010, Val.vInt 1],
    [Val.vStr "b", Val.vInt 2020, Val.vInt 2],
    [Val.vStr "a", Val.vInt 2010, Val.vInt 3]]⟩

theorem str_append_assoc (a b c : String) : a ++ b ++ c = a ++ (b ++ c) := by
  apply String.ext
  simp [String.data_append, List.append_assoc]

theorem str_append_empty (a : String) : a ++ "" = a := by
  apply String.ext
  simp [String.data_append]

theorem str_empty_append (a : String) : "" ++ a = a := by
  apply String.ext
  simp [String.data_append]

theorem strDropLast_append_bar (s : String) : strDropLast (s ++ "|") = s := by
  apply String.ext
  show (s ++ "|").data.dropLast = s.data
  rw [String.data_append]
  exact List.dropLast_concat

theorem strDropLast_append_of_ne_nil (a b : String) (hb : b.data ≠ []) :
    strDropLast (a ++ b) = a ++ strDropLast b := by
  apply String.ext
  show (a ++ b).data.dropLast = (a ++ strDropLast b).data
  rw [String.data_append, String.data_append, List.dropLast_append]
  rw [if_neg (by simpa [List.isEmpty_iff] using hb)]
  rfl

theorem zipWith_getD {α β γ : Type} (f : α → β → γ) (as : List α) (bs : List β)
    (i : Nat) (ha : i < as.length) (hb : i < bs.length) (da : α) (db : β) (dc : γ) :
    (List.zipWith f as bs).getD i dc = f (as.getD i da) (bs.getD i db) := by
  induction as generalizing bs i with
  | nil => simp at ha
  | cons a as ih =>
      cases bs with
      | nil => simp at hb
      | cons b bs =>
          cases i with
          | zero => rfl
          | succ n => exact ih bs n (by simpa using ha) (by simpa using hb)

theorem map_getD {α β : Type} (f : α → β) (l : List α) (i : Nat) (hi : i < l.length)
    (da : α) (db : β) : (l.map f).getD i db = f (l.getD i da) := by
  induction l generalizing i with
  | nil => simp at hi
  | cons a t ih =>
      cases i with
      | zero => rfl
      | succ n => exact ih n (by simpa using hi)

theorem col_length (df : DF) (l : Val) : (df.col l).length = df.nrows := by
  simp [DF.col, DF.nrows]

theorem col_getD (df : DF) (l : Val) (i : Nat) (hi : i < df.nrows) :
    (df.col l).getD i Val.vNaN = df.cellOf (df.rows.getD i []) l := by
  unfold DF.col
  exact map_getD _ df.rows i hi [] Val.vNaN

theorem breadcrumb_foldl_length (df : DF) (labels : List Val) (acc : List String)
    (h : acc.length = df.nrows) :
    (labels.foldl
        (fun acc label => acc.zipWith (fun s v => s ++ v.pyStr ++ "|") (df.col label))
        acc).length = df.nrows := by
  induction labels generalizing acc with
  | nil => simpa using h
  | cons l ls ih =>
      rw [List.foldl_cons]
      apply ih
      rw [List.length_zipWith, h, col_length, Nat.min_self]

theorem breadcrumb_foldl_getD (df : DF) (labels : List Val) (acc : List String)
    (hlen : acc.length = df.nrows) (i : Nat) (hi : i < df.nrows) :
    (labels.foldl
        (fun acc label => acc.zipWith (fun s v => s ++ v.pyStr ++ "|") (df.col label))
        acc).getD i "" =
      acc.getD i "" ++ barTail df (df.rows.getD i []) labels := by
  induction labels generalizing acc with
  | nil =>
      rw [List.foldl_nil]
      show acc.getD i "" = acc.getD i "" ++ barTail df (df.rows.getD i []) []
      rw [show barTail df (df.rows.getD i []) [] = "" from rfl, str_append_empty]
  | cons l ls ih =>
      rw [List.foldl_cons,
        ih _ (by rw [List.length_zipWith, hlen, col_length, Nat.min_self]),
        zipWith_getD _ _ _ i (hlen ▸ hi) (by rw [col_length]; exact hi) "" Val.vNaN "",
        col_getD df l i hi]
      show (acc.getD i "" ++ (df.cellOf (df.rows.getD i []) l).pyStr ++ "|") ++
          barTail df (df.rows.getD i []) ls = _
      rw [show barTail df (df.rows.getD i []) (l :: ls) =
          (df.cellOf (df.rows.getD i []) l).pyStr ++ "|" ++ barTail df (df.rows.getD i []) ls
          from rfl]
      rw [str_append_assoc, str_append_assoc, str_append_assoc]

theorem barTail_data_ne_nil (df : DF) (row : List Val) (l : Val) (ls : List Val) :
    (barTail df row (l :: ls)).data ≠ [] := by
  show ((df.cellOf row l).pyStr ++ "|" ++ barTail df row ls).data ≠ []
  simp [String.data_append]

theorem strDropLast_barTail (df : DF) (row : List Val) (l : Val) (ls : List Val) :
    strDropLast (barTail df row (l :: ls)) =
      joinBar ((l :: ls).map (fun c => (df.cellOf row c).pyStr)) := by
  induction ls generalizing l with
  | nil =>
      show strDropLast ((df.cellOf row l).pyStr ++ "|" ++ barTail df row []) = _
      rw [show barTail df row [] = "" from rfl, str_append_empty, strDropLast_append_bar]
      rfl
  | cons l' ls ih =>
      show strDropLast ((df.cellOf row l).pyStr ++ "|" ++ barTail df row (l' :: ls)) = _
      rw [strDropLast_append_of_ne_nil _ _ (barTail_data_ne_nil df row l' ls), ih l']
      simp only [List.map_cons, joinBar]

/-- C1: in a row-mode run the identifier column does get the year table's
row count, but its entries are the breadcrumbs of the first rows of the
ORIGINAL unreduced frame (index alignment keeps original rows 0..n-1),
not the breadcrumbs of the distinct post-pivot identity keys: on the
(id,year,val) rows (b,2010,1), (b,2020,2), (a,2010,3) with Model ← [id],
the pivot's identity keys are [a],[b] (pandas sorts them) but the code's
Model column is [b, b], so identifier row 0 and year row 0 describe
different entities. -/
theorem c1_identifier_misaligned_to_pivot :
    (assignField rowModeSample
        (pivotDF rowModeSample [Val.vStr "id"] (Val.vStr "year") (Val.vStr "val")).nrows
        (some [Val.vStr "id"]) none).length =
      (pivotDF rowModeSample [Val.vStr "id"] (Val.vStr "year") (Val.vStr "val")).nrows ∧
    assignField rowModeSample
        (pivotDF rowModeSample [Val.vStr "id"] (Val.vStr "year") (Val.vStr "val")).nrows
        (some [Val.vStr "id"]) none =
      [Val.vStr "b", Val.vStr "b"] ∧
    (pivotKeys rowModeSample [Val.vStr "id"]).map
        (fun k => Val.vStr (keyBreadcrumb [Val.vStr "id"] [Val.vStr "id"] k)) =
      [Val.vStr "a", Val.vStr "b"] ∧
    assignField rowModeSample
        (pivotDF rowModeSample [Val.vStr "id"] (Val.vStr "year") (Val.vStr "val")).nrows
        (some [Val.vStr "id"]) none ≠
      (pivotKeys rowModeSample [Val.vStr "id"]).map
        (fun k => Val.vStr (keyBreadcrumb [Val.vStr "id"] [Val.vStr "id"] k)) := by
  decide

/-- C2 counterexample: the resolver returns "840" unchanged — a
3-character string is looked up as an alpha-3 code (no alpha-3 code is a
digit string) and a failed lookup passes the input through, so the
all-digit rule never sees it — even though the database does carry
numeric code 840 with name "United States". -/
theorem c2_840_unresolved :
    convert_iso_to_country_name (Val.vStr "840") = Val.vStr "840" ∧
    (Val.vStr "840" : Val) ≠ Val.vStr "United States" ∧
    (∃ c ∈ countryTable, c.numeric = "840" ∧ c.name = "United States") := by
  decide

/-- C2 (amended): "US" and "USA" resolve to "United States", "ZZ" and ""
pass through — but "840" also passes through (length 3 wins over the
digit rule), and only an all-digit string whose length is neither 2 nor 3
is zero-padded to 3 digits and resolved as an ISO 3166-1 numeric code,
yielding the official name exactly when the code exists. -/
theorem c2_resolver_classification (s : String)
    (hd : pyIsDigit s = true) (h2 : s.length ≠ 2) (h3 : s.length ≠ 3) :
    convert_iso_to_country_name (Val.vStr "US") = Val.vStr "United States" ∧
    convert_iso_to_country_name (Val.vStr "USA") = Val.vStr "United States" ∧
    convert_iso_to_country_name (Val.vStr "840") = Val.vStr "840" ∧
    convert_iso_to_country_name (Val.vStr "ZZ") = Val.vStr "ZZ" ∧
    convert_iso_to_country_name (Val.vStr "") = Val.vStr "" ∧
    convert_iso_to_country_name (Val.vStr s) =
      (match getNumeric (zfill 3 s) with
       | some c => Val.vStr c.name
       | none => Val.vStr s) := by
  refine ⟨by decide, by decide, by decide, by decide, by decide, ?_⟩
  simp only [convert_iso_to_country_name, convertBody]
  rw [if_neg h2, if_neg h3, if_pos hd]

theorem c2_resolver_classification_witness :
    pyIsDigit "4" = true ∧ "4".length ≠ 2 ∧ "4".length ≠ 3 ∧
    convert_iso_to_country_name (Val.vStr "4") =
      (match getNumeric (zfill 3 "4") with
       | some c => Val.vStr c.name
       | none => Val.vStr "4") :=
  ⟨by decide, by decide, by decide,
    (c2_resolver_classification "4" (by decide) (by decide) (by decide)).2.2.2.2.2⟩

/-- C5: on mismatched row counts the Assembler raises no error and
produces a wide table anyway: a 2-row identifier table concatenated with
a 1-row year table yields a 2-row table padded with `NaN`; and on equal
row counts it zips the rows positionally, adding and dropping nothing. -/
theorem c5_concat_pads_no_error :
    concatCols ⟨[Val.vStr "Model"], [[Val.vStr "m1"], [Val.vStr "m2"]]⟩
        ⟨[Val.vInt 2010], [[Val.vInt 5]]⟩ =
      ⟨[Val.vStr "Model", Val.vInt 2010],
        [[Val.vStr "m1", Val.vInt 5], [Val.vStr "m2", Val.vNaN]]⟩ ∧
    concatCols ⟨[Val.vStr "Model"], [[Val.vStr "m1"], [Val.vStr "m2"]]⟩
        ⟨[Val.vInt 2010], [[Val.vInt 5], [Val.vInt 7]]⟩ =
      ⟨[Val.vStr "Model", Val.vInt 2010],
        [[Val.vStr "m1", Val.vInt 5], [Val.vStr "m2", Val.vInt 7]]⟩ := by
  decide

/-- C6: the Region Code Resolver is total: for every input value it
returns either the input unchanged or the official name of a country in
the database.  A failed lookup falls back to the input, and the
`TypeError` that `len()` raises on a non-string is swallowed by the bare
`except:`. -/
theorem c6_resolver_pass_through_or_name (v : Val) :
    convert_iso_to_country_name v = v ∨
    ∃ c ∈ countryTable, convert_iso_to_country_name v = Val.vStr c.name := by
  cases v with
  | vInt n => exact Or.inl rfl
  | vNaN => exact Or.inl rfl
  | vStr s =>
    simp only [convert_iso_to_country_name, convertBody]
    by_cases h2 : s.length = 2
    · rw [if_pos h2]
      cases hg : getAlpha2 (pyUpper s) with
      | none => exact Or.inl rfl
      | some c =>
        exact Or.inr ⟨c, List.mem_of_find?_eq_some hg, rfl⟩
    · rw [if_neg h2]
      by_cases h3 : s.length = 3
      · rw [if_pos h3]
        cases hg : getAlpha3 (pyUpper s) with
        | none => exact Or.inl rfl
        | some c =>
          exact Or.inr ⟨c, List.mem_of_find?_eq_some hg, rfl⟩
      · rw [if_neg h3]
        by_cases hd : pyIsDigit s = true
        · rw [if_pos hd]
          cases hg : getNumeric (zfill 3 s) with
          | none => exact Or.inl rfl
          | some c =>
            exact Or.inr ⟨c, List.mem_of_find?_eq_some hg, rfl⟩
        · rw [if_neg hd]
          exact Or.inl rfl

/-- C7 counterexample: no configuration error is surfaced and a year
table IS produced in both bad configurations.  Selecting `year` as both
year and value column pivots with index `[id, val]` and fills the cells
from the year column itself; selecting zero year columns in column mode
yields a table with no columns but every row. -/
theorem c7_no_config_error :
    pivotDF ⟨[Val.vStr "id", Val.vStr "year", Val.vStr "val"],
        [[Val.vStr "a", Val.vInt 2010, Val.vInt 1],
         [Val.vStr "a", Val.vInt 2020, Val.vInt 2]]⟩
        [Val.vStr "id", Val.vStr "val"] (Val.vStr "year") (Val.vStr "year") =
      ⟨[Val.vInt 2010, Val.vInt 2020],
        [[Val.vInt 2010, Val.vNaN], [Val.vNaN, Val.vInt 2020]]⟩ ∧
    selectCols ⟨[Val.vStr "id", Val.vStr "year", Val.vStr "val"],
        [[Val.vStr "a", Val.vInt 2010, Val.vInt 1],
         [Val.vStr "a", Val.vInt 2020, Val.vInt 2]]⟩ [] =
      ⟨[], [[], []]⟩ := by
  decide

/-- C7 (amended): neither bad configuration is validated — no error, and
a (degenerate) year table is produced: with the same column as year and
value column every pivot cell in column `y` is either `y` itself or
`NaN`, and with zero year columns the selection keeps all rows and no
columns. -/
theorem c7_degenerate_output (df : DF) (restLabels : List Val) (c : Val)
    (k : List Val) (y : Val) :
    (pivotCell df restLabels c c k y = y ∨ pivotCell df restLabels c c k y = Val.vNaN) ∧
    (selectCols df []).header = [] ∧ (selectCols df []).nrows = df.nrows := by
  refine ⟨?_, rfl, by simp [selectCols, DF.nrows]⟩
  unfold pivotCell
  cases hfind : df.rows.find? (fun r =>
      decide (keyOf df restLabels r = k) && decide (df.cellOf r c = y)) with
  | none => exact Or.inr rfl
  | some r =>
    left
    have hp := List.find?_some hfind
    simp only [Bool.and_eq_true, decide_eq_true_eq] at hp
    exact hp.2

/-- C8 counterexample: melting a wide table whose year column is labelled
by the text "2010" keeps the text label in the Year column: no integer
coercion happens (the string "2010" is not the integer 2010). -/
theorem c8_year_label_not_coerced :
    (meltDF ⟨[Val.vStr "Model", Val.vStr "2010"], [[Val.vStr "m", Val.vInt 5]]⟩).rows =
      [[Val.vStr "m", Val.vStr "2010", Val.vInt 5]] ∧
    (Val.vStr "2010" : Val) ≠ Val.vInt 2010 := by
  decide

/-- C8 (amended): the Long-Format Transformer never alters Year labels:
every output row carries one of the wide table's value-column labels
verbatim as Year (integer labels stay integers, text labels stay text),
together with the identifier cells and that column's cell as Value. -/
theorem c8_year_labels_verbatim (df : DF) (row : List Val)
    (hrow : row ∈ (meltDF df).rows) :
    ∃ y ∈ meltYearCols df, ∃ r ∈ df.rows,
      row = (meltIdVars df).map (df.cellOf r) ++ [y, df.cellOf r y] := by
  unfold meltDF at hrow
  simp only [List.mem_flatMap, List.mem_map] at hrow
  obtain ⟨y, hy, r, hr, rfl⟩ := hrow
  exact ⟨y, hy, r, hr, rfl⟩

theorem c8_year_labels_verbatim_witness :
    ([Val.vStr "m", Val.vStr "2010", Val.vInt 5] ∈
      (meltDF ⟨[Val.vStr "Model", Val.vStr "2010"], [[Val.vStr "m", Val.vInt 5]]⟩).rows) ∧
    ∃ y ∈ meltYearCols ⟨[Val.vStr "Model", Val.vStr "2010"],
        [[Val.vStr "m", Val.vInt 5]]⟩,
      ∃ r ∈ (⟨[Val.vStr "Model", Val.vStr "2010"],
        [[Val.vStr "m", Val.vInt 5]]⟩ : DF).rows,
        [Val.vStr "m", Val.vStr "2010", Val.vInt 5] =
          (meltIdVars ⟨[Val.vStr "Model", Val.vStr "2010"],
            [[Val.vStr "m", Val.vInt 5]]⟩).map
            ((⟨[Val.vStr "Model", Val.vStr "2010"],
              [[Val.vStr "m", Val.vInt 5]]⟩ : DF).cellOf r) ++
          [y, (⟨[Val.vStr "Model", Val.vStr "2010"],
            [[Val.vStr "m", Val.vInt 5]]⟩ : DF).cellOf r y] :=
  ⟨by decide, c8_year_labels_verbatim _ _ (by decide)⟩

/-- C9: `convert_iso_to_country_name` is total over arbitrary values, not
only strings: a non-string input makes `len()` raise `TypeError`, the
bare `except:` returns the input unchanged; in particular the all-`NaN`
Region column of a run that never mapped Region survives the
unconditional `.apply` untouched. -/
theorem c9_nonstring_pass_through :
    (∀ v : Val, v.isStr = false → convert_iso_to_country_name v = v) ∧
    (∀ (df : DF) (n : Nat), regionColumn df n none none = List.replicate n Val.vNaN) := by
  constructor
  · intro v hv
    cases v with
    | vStr s => simp [Val.isStr] at hv
    | vInt n => rfl
    | vNaN => rfl
  · intro df n
    show (assignField df n none none).map convert_iso_to_country_name = _
    have h1 : assignField df n none none = List.replicate n Val.vNaN := rfl
    rw [h1, List.map_replicate]
    rfl

theorem c9_nonstring_pass_through_witness :
    Val.isStr Val.vNaN = false ∧ convert_iso_to_country_name Val.vNaN = Val.vNaN :=
  ⟨rfl, c9_nonstring_pass_through.1 Val.vNaN rfl⟩

/-- C10: an empty static literal behaves exactly like supplying no
mapping at all — `""` is falsy in the `if <field>_text` guard, so the
field keeps its reindexed all-`NaN` (missing) state rather than becoming
the empty string — and a non-empty literal always takes precedence over
any selected columns. -/
theorem c10_empty_literal_like_unmapped (df : DF) (n : Nat) (cols : List Val)
    (t : String) (ht : t ≠ "") :
    assignField df n (map_input true "" cols).1 (map_input true "" cols).2 =
      List.replicate n Val.vNaN ∧
    assignField df n (map_input false t []).1 (map_input false t []).2 =
      List.replicate n Val.vNaN ∧
    assignField df n (some cols) (some t) = List.replicate n (Val.vStr t) := by
  refine ⟨?_, ?_, ?_⟩
  · simp [map_input, assignField, truthyStr, truthyList]
  · simp [map_input, assignField, truthyStr, truthyList]
  · simp [assignField, truthyStr, ht]

theorem c10_empty_literal_like_unmapped_witness :
    "M1" ≠ "" ∧
    assignField ⟨[Val.vStr "A"], [[Val.vStr "x"]]⟩ 1 (some [Val.vStr "A"]) (some "M1") =
      List.replicate 1 (Val.vStr "M1") :=
  ⟨by decide,
    (c10_empty_literal_like_unmapped ⟨[Val.vStr "A"], [[Val.vStr "x"]]⟩ 1
      [Val.vStr "A"] "M1" (by decide)).2.2⟩

/-- C3: for every table and non-empty ordered list of selected columns,
`create_breadcrumbs` returns one string per input row in the same row
count and order, row i being the selected columns' values stringified and
joined with '|' in the given column order with no trailing separator; for
a single selected column the output is that column's stringified values
with no separator added. -/
theorem c3_breadcrumbs_join (df : DF) (labels : List Val) (hne : labels ≠ []) :
    (create_breadcrumbs df labels).length = df.nrows ∧
    (∀ i, i < df.nrows →
      (create_breadcrumbs df labels).getD i "" =
        joinBar (labels.map (fun l => (df.cellOf (df.rows.getD i []) l).pyStr))) ∧
    (∀ l : Val, create_breadcrumbs df [l] = (df.col l).map Val.pyStr) := by
  have hinit : (df.rows.map (fun _ => "")).length = df.nrows := by
    simp [DF.nrows]
  refine ⟨?_, ?_, ?_⟩
  · unfold create_breadcrumbs
    rw [List.length_map]
    exact breadcrumb_foldl_length df labels _ hinit
  · intro i hi
    unfold create_breadcrumbs
    rw [map_getD strDropLast _ i
        (by rw [breadcrumb_foldl_length df labels _ hinit]; exact hi) "" "",
      breadcrumb_foldl_getD df labels _ hinit i hi,
      map_getD (fun _ => "") df.rows i hi [] "", str_empty_append]
    obtain ⟨l, ls, rfl⟩ := List.exists_cons_of_ne_nil hne
    exact strDropLast_barTail df _ l ls
  · intro l
    unfold create_breadcrumbs
    rw [List.foldl_cons, List.foldl_nil]
    unfold DF.col
    rw [List.zipWith_map (fun (s : String) (v : Val) => s ++ v.pyStr ++ "|")
        (fun (_ : List Val) => "") (fun r => df.cellOf r l) df.rows df.rows,
      List.zipWith_same, List.map_map, List.map_map]
    apply List.map_congr_left
    intro r hr
    show strDropLast ("" ++ (df.cellOf r l).pyStr ++ "|") = (df.cellOf r l).pyStr
    rw [str_empty_append]
    exact strDropLast_append_bar _

theorem c3_breadcrumbs_join_witness :
    ([Val.vStr "A", Val.vStr "B"] : List Val) ≠ [] ∧
    ((create_breadcrumbs
        ⟨[Val.vStr "A", Val.vStr "B"],
          [[Val.vStr "x", Val.vStr "y"], [Val.vInt 3, Val.vNaN]]⟩
        [Val.vStr "A", Val.vStr "B"]).length =
      (⟨[Val.vStr "A", Val.vStr "B"],
          [[Val.vStr "x", Val.vStr "y"], [Val.vInt 3, Val.vNaN]]⟩ : DF).nrows ∧
    (∀ i, i < (⟨[Val.vStr "A", Val.vStr "B"],
          [[Val.vStr "x", Val.vStr "y"], [Val.vInt 3, Val.vNaN]]⟩ : DF).nrows →
      (create_breadcrumbs
          ⟨[Val.vStr "A", Val.vStr "B"],
            [[Val.vStr "x", Val.vStr "y"], [Val.vInt 3, Val.vNaN]]⟩
          [Val.vStr "A", Val.vStr "B"]).getD i "" =
        joinBar (([Val.vStr "A", Val.vStr "B"]).map
          (fun l => ((⟨[Val.vStr "A", Val.vStr "B"],
              [[Val.vStr "x", Val.vStr "y"], [Val.vInt 3, Val.vNaN]]⟩ : DF).cellOf
            ((⟨[Val.vStr "A", Val.vStr "B"],
              [[Val.vStr "x", Val.vStr "y"], [Val.vInt 3, Val.vNaN]]⟩ : DF).rows.getD i [])
            l).pyStr))) ∧
    (∀ l : Val, create_breadcrumbs
        ⟨[Val.vStr "A", Val.vStr "B"],
          [[Val.vStr "x", Val.vStr "y"], [Val.vInt 3, Val.vNaN]]⟩ [l] =
      ((⟨[Val.vStr "A", Val.vStr "B"],
          [[Val.vStr "x", Val.vStr "y"], [Val.vInt 3, Val.vNaN]]⟩ : DF).col l).map
        Val.pyStr)) :=
  ⟨by decide,
    c3_breadcrumbs_join
      ⟨[Val.vStr "A", Val.vStr "B"],
        [[Val.vStr "x", Val.vStr "y"], [Val.vInt 3, Val.vNaN]]⟩
      [Val.vStr "A", Val.vStr "B"] (by decide)⟩

theorem charLtb_irrefl (a : Char) : charLtb a a = false := by
  simp [charLtb]

theorem charLtb_trans {a b c : Char} (h1 : charLtb a b = true)
    (h2 : charLtb b c = true) : charLtb a c = true := by
  simp only [charLtb, decide_eq_true_eq] at *
  omega

theorem charLtb_connex {a b : Char} (h : a ≠ b) :
    charLtb a b = true ∨ charLtb b a = true := by
  simp only [charLtb, decide_eq_true_eq]
  rcases Nat.lt_trichotomy a.toNat b.toNat with h1 | h1 | h1
  · exact Or.inl h1
  · exact absurd (Char.eq_of_val_eq (UInt32.toNat.inj h1)) h
  · exact Or.inr h1

theorem lexLtb_irrefl {α : Type} [DecidableEq α] (lt : α → α → Bool) :
    ∀ l : List α, lexLtb lt l l = false
  | [] => rfl
  | a :: as => by
      show (if a = a then lexLtb lt as as else lt a a) = false
      rw [if_pos rfl]
      exact lexLtb_irrefl lt as

theorem lexLtb_trans {α : Type} [DecidableEq α] (lt : α → α → Bool)
    (htr : ∀ a b c, lt a b = true → lt b c = true → lt a c = true)
    (hirr : ∀ a, lt a a = false) :
    ∀ l1 l2 l3 : List α, lexLtb lt l1 l2 = true → lexLtb lt l2 l3 = true →
      lexLtb lt l1 l3 = true := by
  intro l1
  induction l1 with
  | nil =>
      intro l2 l3 h1 h2
      cases l2 with
      | nil => simp [lexLtb] at h1
      | cons b bs =>
          cases l3 with
          | nil => simp [lexLtb] at h2
          | cons c cs => simp [lexLtb]
  | cons a as ih =>
      intro l2 l3 h1 h2
      cases l2 with
      | nil => simp [lexLtb] at h1
      | cons b bs =>
          cases l3 with
          | nil => simp [lexLtb] at h2
          | cons c cs =>
              show (if a = c then lexLtb lt as cs else lt a c) = true
              rw [show lexLtb lt (a :: as) (b :: bs) =
                  (if a = b then lexLtb lt as bs else lt a b) from rfl] at h1
              rw [show lexLtb lt (b :: bs) (c :: cs) =
                  (if b = c then lexLtb lt bs cs else lt b c) from rfl] at h2
              by_cases hab : a = b
              · subst hab
                rw [if_pos rfl] at h1
                by_cases hac : a = c
                · subst hac
                  rw [if_pos rfl] at h2
                  rw [if_pos rfl]
                  exact ih bs cs h1 h2
                · rw [if_neg hac] at h2
                  rw [if_neg hac]
                  exact h2
              · rw [if_neg hab] at h1
                by_cases hbc : b = c
                · subst hbc
                  rw [if_neg hab]
                  exact h1
                · rw [if_neg hbc] at h2
                  by_cases hac : a = c
                  · subst hac
                    have hcc := htr _ _ _ h1 h2
                    rw [hirr] at hcc
                    exact absurd hcc (by simp)
                  · rw [if_neg hac]
                    exact htr _ _ _ h1 h2

theorem lexLtb_connex {α : Type} [DecidableEq α] (lt : α → α → Bool)
    (hcon : ∀ a b, a ≠ b → lt a b = true ∨ lt b a = true) :
    ∀ l1 l2 : List α, l1 ≠ l2 → lexLtb lt l1 l2 = true ∨ lexLtb lt l2 l1 = true := by
  intro l1
  induction l1 with
  | nil =>
      intro l2 hne
      cases l2 with
      | nil => exact absurd rfl hne
      | cons b bs => exact Or.inl (by simp [lexLtb])
  | cons a as ih =>
      intro l2 hne
      cases l2 with
      | nil => exact Or.inr (by simp [lexLtb])
      | cons b bs =>
          by_cases hab : a = b
          · subst hab
            have hne' : as ≠ bs := fun h => hne (by rw [h])
            rcases ih bs hne' with h | h
            · refine Or.inl ?_
              show (if a = a then lexLtb lt as bs else lt a a) = true
              rw [if_pos rfl]
              exact h
            · refine Or.inr ?_
              show (if a = a then lexLtb lt bs as else lt a a) = true
              rw [if_pos rfl]
              exact h
          · rcases hcon a b hab with h | h
            · refine Or.inl ?_
              show (if a = b then lexLtb lt as bs else lt a b) = true
              rw [if_neg hab]
              exact h
            · refine Or.inr ?_
              show (if b = a then lexLtb lt bs as else lt b a) = true
              rw [if_neg (Ne.symm hab)]
              exact h

theorem valLtb_irrefl (a : Val) : Val.ltb a a = false := by
  cases a with
  | vStr s => exact lexLtb_irrefl charLtb s.data
  | vInt n => simp [Val.ltb]
  | vNaN => rfl

theorem valLtb_trans {a b c : Val} (h1 : Val.ltb a b = true)
    (h2 : Val.ltb b c = true) : Val.ltb a c = true := by
  cases a with
  | vInt x =>
      cases b with
      | vInt y =>
          cases c with
          | vInt z =>
              simp only [Val.ltb, decide_eq_true_eq] at *
              omega
          | vStr t => rfl
          | vNaN => rfl
      | vStr s =>
          cases c with
          | vInt z => exact absurd h2 (by simp [Val.ltb])
          | vStr t => rfl
          | vNaN => rfl
      | vNaN => exact absurd h2 (by simp [Val.ltb])
  | vStr s =>
      cases b with
      | vInt y => exact absurd h1 (by simp [Val.ltb])
      | vStr t =>
          cases c with
          | vInt z => exact absurd h2 (by simp [Val.ltb])
          | vStr u =>
              exact lexLtb_trans charLtb (fun _ _ _ ha hb => charLtb_trans ha hb)
                charLtb_irrefl s.data t.data u.data h1 h2
          | vNaN => rfl
      | vNaN => exact absurd h2 (by simp [Val.ltb])
  | vNaN => exact absurd h1 (by simp [Val.ltb])

theorem valLtb_connex {a b : Val} (hne : a ≠ b) :
    Val.ltb a b = true ∨ Val.ltb b a = true := by
  cases a with
  | vInt x =>
      cases b with
      | vInt y =>
          have hxy : x ≠ y := fun h => hne (by rw [h])
          simp only [Val.ltb, decide_eq_true_eq]
          omega
      | vStr t => exact Or.inl rfl
      | vNaN => exact Or.inl rfl
  | vStr s =>
      cases b with
      | vInt y => exact Or.inr rfl
      | vStr t =>
          have hd : s.data ≠ t.data := fun h => hne (congrArg Val.vStr (String.ext h))
          exact lexLtb_connex charLtb (fun _ _ h => charLtb_connex h) s.data t.data hd
      | vNaN => exact Or.inl rfl
  | vNaN =>
      cases b with
      | vInt y => exact Or.inr rfl
      | vStr t => exact Or.inr rfl
      | vNaN => exact absurd rfl hne

theorem keyLtb_irrefl (k : List Val) : keyLtb k k = false :=
  lexLtb_irrefl Val.ltb k

theorem keyLtb_trans (k1 k2 k3 : List Val) (h1 : keyLtb k1 k2 = true)
    (h2 : keyLtb k2 k3 = true) : keyLtb k1 k3 = true :=
  lexLtb_trans Val.ltb (fun _ _ _ ha hb => valLtb_trans ha hb)
    valLtb_irrefl k1 k2 k3 h1 h2

theorem keyLtb_connex (k1 k2 : List Val) (hne : k1 ≠ k2) :
    keyLtb k1 k2 = true ∨ keyLtb k2 k1 = true :=
  lexLtb_connex Val.ltb (fun _ _ h => valLtb_connex h) k1 k2 hne

theorem mem_insertBy {α : Type} [DecidableEq α] (lt : α → α → Bool) (x : α)
    (l : List α) (y : α) : y ∈ insertBy lt x l ↔ y = x ∨ y ∈ l := by
  induction l with
  | nil => simp [insertBy]
  | cons h t ih =>
      show y ∈ (if x = h then h :: t
        else if lt x h then x :: h :: t else h :: insertBy lt x t) ↔ _
      by_cases hxh : x = h
      · subst hxh
        rw [if_pos rfl]
        simp only [List.mem_cons]
        tauto
      · rw [if_neg hxh]
        by_cases hlt : lt x h = true
        · rw [if_pos hlt]
          simp only [List.mem_cons]
        · rw [if_neg hlt]
          simp only [List.mem_cons, ih]
          tauto

theorem pairwise_insertBy {α : Type} [DecidableEq α] (lt : α → α → Bool)
    (htr : ∀ a b c, lt a b = true → lt b c = true → lt a c = true)
    (hcon : ∀ a b, a ≠ b → lt a b = true ∨ lt b a = true)
    (x : α) (l : List α) (hp : List.Pairwise (fun a b => lt a b = true) l) :
    List.Pairwise (fun a b => lt a b = true) (insertBy lt x l) := by
  induction l with
  | nil => simp [insertBy]
  | cons h t ih =>
      show List.Pairwise _ (if x = h then h :: t
        else if lt x h then x :: h :: t else h :: insertBy lt x t)
      by_cases hxh : x = h
      · rw [if_pos hxh]
        exact hp
      · rw [if_neg hxh]
        by_cases hlt : lt x h = true
        · rw [if_pos hlt]
          refine List.Pairwise.cons ?_ hp
          intro y hy
          rcases List.mem_cons.mp hy with rfl | hy'
          · exact hlt
          · exact htr _ _ _ hlt (List.rel_of_pairwise_cons hp hy')
        · rw [if_neg hlt]
          have hhx : lt h x = true := by
            rcases hcon x h hxh with hc | hc
            · exact absurd hc hlt
            · exact hc
          refine List.Pairwise.cons ?_ (ih (List.Pairwise.of_cons hp))
          intro y hy
          rcases (mem_insertBy lt x t y).mp hy with rfl | hy'
          · exact hhx
          · exact List.rel_of_pairwise_cons hp hy'

theorem pairwise_sortDedupBy {α : Type} [DecidableEq α] (lt : α → α → Bool)
    (htr : ∀ a b c, lt a b = true → lt b c = true → lt a c = true)
    (hcon : ∀ a b, a ≠ b → lt a b = true ∨ lt b a = true) :
    ∀ l : List α, List.Pairwise (fun a b => lt a b = true) (sortDedupBy lt l)
  | [] => List.Pairwise.nil
  | x :: xs =>
      pairwise_insertBy lt htr hcon x _ (pairwise_sortDedupBy lt htr hcon xs)

theorem mem_sortDedupBy {α : Type} [DecidableEq α] (lt : α → α → Bool) :
    ∀ (l : List α) (y : α), y ∈ sortDedupBy lt l ↔ y ∈ l := by
  intro l
  induction l with
  | nil => intro y; simp [sortDedupBy]
  | cons x xs ih =>
      intro y
      show y ∈ insertBy lt x (sortDedupBy lt xs) ↔ _
      rw [mem_insertBy, ih y, List.mem_cons]

theorem pairwise_ltb_nodup {α : Type} [DecidableEq α] (lt : α → α → Bool)
    (hirr : ∀ a, lt a a = false)
    (l : List α) (hp : List.Pairwise (fun a b => lt a b = true) l) : l.Nodup :=
  hp.imp (fun {a b} hab => by
    intro heq
    subst heq
    rw [hirr] at hab
    exact absurd hab (by simp))

theorem sorted_eq_of_mem_iff {α : Type} [DecidableEq α] (lt : α → α → Bool)
    (htr : ∀ a b c, lt a b = true → lt b c = true → lt a c = true)
    (hirr : ∀ a, lt a a = false) :
    ∀ (l1 l2 : List α), List.Pairwise (fun a b => lt a b = true) l1 →
      List.Pairwise (fun a b => lt a b = true) l2 →
      (∀ y, y ∈ l1 ↔ y ∈ l2) → l1 = l2 := by
  intro l1
  induction l1 with
  | nil =>
      intro l2 _ _ hmem
      cases l2 with
      | nil => rfl
      | cons b bs => exact absurd ((hmem b).mpr (List.mem_cons_self b bs)) (by simp)
  | cons a as ih =>
      intro l2 hp1 hp2 hmem
      cases l2 with
      | nil => exact absurd ((hmem a).mp (List.mem_cons_self a as)) (by simp)
      | cons b bs =>
          have hab : a = b := by
            by_contra hne
            have ha : a ∈ b :: bs := (hmem a).mp (List.mem_cons_self a as)
            have hb : b ∈ a :: as := (hmem b).mpr (List.mem_cons_self b bs)
            rcases List.mem_cons.mp ha with h1 | h1
            · exact hne h1
            rcases List.mem_cons.mp hb with h2 | h2
            · exact hne h2.symm
            have hba : lt b a = true := List.rel_of_pairwise_cons hp2 h1
            have hab' : lt a b = true := List.rel_of_pairwise_cons hp1 h2
            have haa : lt a a = true := htr _ _ _ hab' hba
            rw [hirr] at haa
            exact absurd haa (by simp)
          subst hab
          have htails : ∀ y, y ∈ as ↔ y ∈ bs := by
            intro y
            constructor
            · intro hy
              have hy2 : y ∈ a :: bs := (hmem y).mp (List.mem_cons_of_mem a hy)
              rcases List.mem_cons.mp hy2 with rfl | h
              · have haa := List.rel_of_pairwise_cons hp1 hy
                rw [hirr] at haa
                exact absurd haa (by simp)
              · exact h
            · intro hy
              have hy2 : y ∈ a :: as := (hmem y).mpr (List.mem_cons_of_mem a hy)
              rcases List.mem_cons.mp hy2 with rfl | h
              · have haa := List.rel_of_pairwise_cons hp2 hy
                rw [hirr] at haa
                exact absurd haa (by simp)
              · exact h
          rw [ih bs (List.Pairwise.of_cons hp1) (List.Pairwise.of_cons hp2) htails]

theorem sortDedupBy_perm {α : Type} [DecidableEq α] (lt : α → α → Bool)
    (htr : ∀ a b c, lt a b = true → lt b c = true → lt a c = true)
    (hirr : ∀ a, lt a a = false)
    (hcon : ∀ a b, a ≠ b → lt a b = true ∨ lt b a = true)
    (l : List α) (hn : l.Nodup) : List.Perm (sortDedupBy lt l) l :=
  (List.perm_ext_iff_of_nodup
      (pairwise_ltb_nodup lt hirr _ (pairwise_sortDedupBy lt htr hcon l)) hn).mpr
    (mem_sortDedupBy lt l)

theorem sortDedupBy_flatMap_const {α β : Type} [DecidableEq α] (lt : α → α → Bool)
    (htr : ∀ a b c, lt a b = true → lt b c = true → lt a c = true)
    (hirr : ∀ a, lt a a = false)
    (hcon : ∀ a b, a ≠ b → lt a b = true ∨ lt b a = true)
    (ys : List β) (hys : ys ≠ []) (tuples : List α) :
    sortDedupBy lt (ys.flatMap (fun _ => tuples)) = sortDedupBy lt tuples := by
  apply sorted_eq_of_mem_iff lt htr hirr _ _
    (pairwise_sortDedupBy lt htr hcon _) (pairwise_sortDedupBy lt htr hcon _)
  intro y
  rw [mem_sortDedupBy, mem_sortDedupBy, List.mem_flatMap]
  constructor
  · rintro ⟨a, _, hy⟩
    exact hy
  · intro hy
    obtain ⟨a, ha⟩ := List.exists_mem_of_ne_nil ys hys
    exact ⟨a, ha, hy⟩

theorem find?_flatMap_eq {α β : Type} (p : α → Bool) (f : β → List α) (y0 : β)
    (r : α) (hsome : (f y0).find? p = some r) :
    ∀ ys : List β, y0 ∈ ys →
      (∀ y ∈ ys, y ≠ y0 → ∀ x ∈ f y, p x = false) →
      (ys.flatMap (fun y => f y)).find? p = some r := by
  intro ys
  induction ys with
  | nil => intro hy _; simp at hy
  | cons y rest ih =>
      intro hy hnone
      rw [List.flatMap_cons, List.find?_append]
      by_cases hyy : y = y0
      · subst hyy
        rw [hsome]
        rfl
      · have hzero : (f y).find? p = none :=
          List.find?_eq_none.mpr (fun x hx => by
            rw [hnone y (List.mem_cons_self y rest) hyy x hx]
            simp)
        rw [hzero]
        have hy' : y0 ∈ rest := by
          rcases List.mem_cons.mp hy with h | h
          · exact absurd h.symm hyy
          · exact h
        exact ih hy' (fun y' hm hne x hx =>
          hnone y' (List.mem_cons_of_mem _ hm) hne x hx)

theorem find?_eq_self_of_nodup_map {α β : Type} [DecidableEq β] (g : α → β)
    (l : List α) (hn : (l.map g).Nodup) (x : α) (hx : x ∈ l) :
    l.find? (fun a => decide (g a = g x)) = some x := by
  induction l with
  | nil => simp at hx
  | cons a t ih =>
      rcases List.mem_cons.mp hx with rfl | hx'
      · exact List.find?_cons_of_pos _ (by simp)
      · have hga : g a ≠ g x := by
          intro he
          have hmem : g x ∈ t.map g := List.mem_map_of_mem g hx'
          rw [← he] at hmem
          exact (List.nodup_cons.mp (by simpa using hn)).1 hmem
        rw [List.find?_cons_of_neg _ (by simp [hga])]
        exact ih (by simpa using (List.nodup_cons.mp (by simpa using hn)).2) hx'

theorem meltIdVars_eq (df : DF) (ys : List Val) (h1 : df.header = expected5 ++ ys) :
    meltIdVars df = expected5 := by
  apply List.filter_eq_self.mpr
  intro c hc
  rw [h1]
  simpa using Or.inl hc

theorem meltYearCols_eq (df : DF) (ys : List Val) (h1 : df.header = expected5 ++ ys)
    (hnd : df.header.Nodup) : meltYearCols df = ys := by
  unfold meltYearCols
  rw [meltIdVars_eq df ys h1, h1]
  have hdisj : List.Disjoint expected5 ys :=
    List.disjoint_of_nodup_append (h1 ▸ hnd)
  rw [List.filter_append]
  have hleft : expected5.filter (fun c => !List.contains expected5 c) = [] := by
    apply List.filter_eq_nil_iff.mpr
    intro a ha
    simp [ha]
  have hright : ys.filter (fun c => !List.contains expected5 c) = ys := by
    apply List.filter_eq_self.mpr
    intro a ha
    have hnot : a ∉ expected5 := fun hmem => hdisj hmem ha
    simpa using hnot
  rw [hleft, hright, List.nil_append]

theorem melt_header_eq (df : DF) (ys : List Val) (h1 : df.header = expected5 ++ ys) :
    (meltDF df).header = expected5 ++ [Val.vStr "Year", Val.vStr "Value"] := by
  show meltIdVars df ++ [Val.vStr "Year", Val.vStr "Value"] = _
  rw [meltIdVars_eq df ys h1]

theorem melt_row_key (df : DF) (ys : List Val) (h1 : df.header = expected5 ++ ys)
    (y : Val) (r : List Val) :
    keyOf (meltDF df) expected5
        ((meltIdVars df).map (fun c => df.cellOf r c) ++ [y, df.cellOf r y]) =
      keyOf df expected5 r := by
  unfold keyOf
  apply List.map_congr_left
  intro c hc
  show (meltDF df).cellOf _ c = df.cellOf r c
  unfold DF.cellOf DF.colIdx
  rw [melt_header_eq df ys h1]
  rw [List.indexOf_append_of_mem hc]
  rw [meltIdVars_eq df ys h1]
  rw [List.getD_append _ _ _ _ (by
    rw [List.length_map]
    exact List.indexOf_lt_length.mpr hc)]
  have hgetd : expected5.getD (List.indexOf c expected5) Val.vNaN = c := by
    rw [List.getD_eq_getElem _ _ (List.indexOf_lt_length.mpr hc)]
    exact List.getElem_indexOf (List.indexOf_lt_length.mpr hc)
  rw [map_getD _ expected5 _ (List.indexOf_lt_length.mpr hc) Val.vNaN Val.vNaN, hgetd]

theorem melt_row_year (df : DF) (ys : List Val) (h1 : df.header = expected5 ++ ys)
    (y v : Val) (r : List Val) :
    (meltDF df).cellOf ((meltIdVars df).map (fun c => df.cellOf r c) ++ [y, v])
      (Val.vStr "Year") = y := by
  unfold DF.cellOf DF.colIdx
  rw [melt_header_eq df ys h1]
  rw [List.indexOf_append_of_not_mem (by decide)]
  rw [meltIdVars_eq df ys h1]
  have hidx : expected5.length +
      List.indexOf (Val.vStr "Year") [Val.vStr "Year", Val.vStr "Value"] = 5 := by
    decide
  rw [hidx]
  have h5 : (expected5.map (fun c => r.getD (List.indexOf c df.header) Val.vNaN)).length
      = 5 := by
    rw [List.length_map]
    rfl
  rw [List.getD_append_right _ _ _ _ (le_of_eq h5), h5]
  rfl

theorem melt_row_value (df : DF) (ys : List Val) (h1 : df.header = expected5 ++ ys)
    (y v : Val) (r : List Val) :
    (meltDF df).cellOf ((meltIdVars df).map (fun c => df.cellOf r c) ++ [y, v])
      (Val.vStr "Value") = v := by
  unfold DF.cellOf DF.colIdx
  rw [melt_header_eq df ys h1]
  rw [List.indexOf_append_of_not_mem (by decide)]
  rw [meltIdVars_eq df ys h1]
  have hidx : expected5.length +
      List.indexOf (Val.vStr "Value") [Val.vStr "Year", Val.vStr "Value"] = 6 := by
    decide
  rw [hidx]
  have h5 : (expected5.map (fun c => r.getD (List.indexOf c df.header) Val.vNaN)).length
      = 5 := by
    rw [List.length_map]
    rfl
  rw [List.getD_append_right _ _ _ _ (by rw [h5]; omega), h5]
  rfl

theorem melt_rows_eq (df : DF) (ys : List Val) (h1 : df.header = expected5 ++ ys)
    (hnd : df.header.Nodup) :
    (meltDF df).rows = ys.flatMap (fun y => df.rows.map
      (fun r => (meltIdVars df).map (fun c => df.cellOf r c) ++ [y, df.cellOf r y])) := by
  show (meltYearCols df).flatMap _ = _
  rw [meltYearCols_eq df ys h1 hnd]

theorem melt_col_year (df : DF) (ys : List Val) (h1 : df.header = expected5 ++ ys)
    (hnd : df.header.Nodup) :
    (meltDF df).col (Val.vStr "Year") =
      ys.flatMap (fun y => df.rows.map (fun _ => y)) := by
  unfold DF.col
  rw [melt_rows_eq df ys h1 hnd, List.map_flatMap]
  apply List.flatMap_congr
  intro y _
  rw [List.map_map]
  apply List.map_congr_left
  intro r _
  exact melt_row_year df ys h1 y (df.cellOf r y) r

theorem melt_pivotYears (df : DF) (ys : List Val) (h1 : df.header = expected5 ++ ys)
    (hnd : df.header.Nodup)
    (hsorted : List.Pairwise (fun a b => Val.ltb a b = true) ys)
    (hrows : df.rows ≠ []) :
    pivotYears (meltDF df) (Val.vStr "Year") = ys := by
  unfold pivotYears
  rw [melt_col_year df ys h1 hnd]
  apply sorted_eq_of_mem_iff Val.ltb (fun _ _ _ ha hb => valLtb_trans ha hb)
    valLtb_irrefl _ _
    (pairwise_sortDedupBy Val.ltb (fun _ _ _ ha hb => valLtb_trans ha hb)
      (fun _ _ h => valLtb_connex h) _)
    hsorted
  intro y
  rw [mem_sortDedupBy, List.mem_flatMap]
  constructor
  · rintro ⟨a, ha, hy⟩
    rcases List.mem_map.mp hy with ⟨r, _, rfl⟩
    exact ha
  · intro hy
    obtain ⟨r, hr⟩ := List.exists_mem_of_ne_nil df.rows hrows
    exact ⟨y, hy, List.mem_map_of_mem _ hr⟩

theorem melt_pivotKeys (df : DF) (ys : List Val) (h1 : df.header = expected5 ++ ys)
    (hnd : df.header.Nodup) (hys : ys ≠ []) :
    pivotKeys (meltDF df) expected5 =
      sortDedupBy keyLtb (df.rows.map (fun r => keyOf df expected5 r)) := by
  unfold pivotKeys
  rw [melt_rows_eq df ys h1 hnd, List.map_flatMap]
  have hblocks : (ys.flatMap fun y =>
      List.map (keyOf (meltDF df) expected5)
        (df.rows.map (fun r =>
          (meltIdVars df).map (fun c => df.cellOf r c) ++ [y, df.cellOf r y]))) =
      ys.flatMap (fun _ => df.rows.map (fun r => keyOf df expected5 r)) := by
    apply List.flatMap_congr
    intro y _
    rw [List.map_map]
    exact List.map_congr_left (fun r _ => melt_row_key df ys h1 y r)
  rw [hblocks]
  exact sortDedupBy_flatMap_const keyLtb keyLtb_trans keyLtb_irrefl keyLtb_connex
    ys hys _

theorem melt_pivotCell (df : DF) (ys : List Val)
    (h1 : df.header = expected5 ++ ys) (hnd : df.header.Nodup)
    (htup : (df.rows.map (fun r => keyOf df expected5 r)).Nodup)
    (r0 : List Val) (hr0 : r0 ∈ df.rows) (y : Val) (hy : y ∈ ys) :
    pivotCell (meltDF df) expected5 (Val.vStr "Year") (Val.vStr "Value")
      (keyOf df expected5 r0) y = df.cellOf r0 y := by
  unfold pivotCell
  rw [melt_rows_eq df ys h1 hnd]
  have hsome : ((df.rows.map (fun r =>
      (meltIdVars df).map (fun c => df.cellOf r c) ++ [y, df.cellOf r y])).find?
        (fun r => decide (keyOf (meltDF df) expected5 r = keyOf df expected5 r0) &&
          decide ((meltDF df).cellOf r (Val.vStr "Year") = y))) =
      some ((meltIdVars df).map (fun c => df.cellOf r0 c) ++ [y, df.cellOf r0 y]) := by
    rw [List.find?_map]
    have hfun : ((fun r => decide (keyOf (meltDF df) expected5 r = keyOf df expected5 r0) &&
          decide ((meltDF df).cellOf r (Val.vStr "Year") = y)) ∘
        (fun r => (meltIdVars df).map (fun c => df.cellOf r c) ++ [y, df.cellOf r y])) =
        (fun r => decide ((fun r => keyOf df expected5 r) r =
          (fun r => keyOf df expected5 r) r0)) := by
      funext r
      show (decide (keyOf (meltDF df) expected5
            ((meltIdVars df).map (fun c => df.cellOf r c) ++ [y, df.cellOf r y]) =
          keyOf df expected5 r0) &&
        decide ((meltDF df).cellOf
            ((meltIdVars df).map (fun c => df.cellOf r c) ++ [y, df.cellOf r y])
            (Val.vStr "Year") = y)) = _
      rw [melt_row_key df ys h1 y r, melt_row_year df ys h1 y (df.cellOf r y) r]
      simp
    rw [hfun, find?_eq_self_of_nodup_map (fun r => keyOf df expected5 r) df.rows htup r0 hr0]
    rfl
  have hnone : ∀ y' ∈ ys, y' ≠ y →
      ∀ x ∈ df.rows.map (fun r =>
          (meltIdVars df).map (fun c => df.cellOf r c) ++ [y', df.cellOf r y']),
        (fun r => decide (keyOf (meltDF df) expected5 r = keyOf df expected5 r0) &&
          decide ((meltDF df).cellOf r (Val.vStr "Year") = y)) x = false := by
    intro y' hy' hne x hx
    rcases List.mem_map.mp hx with ⟨r, _, rfl⟩
    show (decide _ && decide ((meltDF df).cellOf
        ((meltIdVars df).map (fun c => df.cellOf r c) ++ [y', df.cellOf r y'])
        (Val.vStr "Year") = y)) = false
    rw [melt_row_year df ys h1 y' (df.cellOf r y') r]
    have hd : decide (y' = y) = false := by simp [hne]
    rw [hd, Bool.and_false]
  rw [find?_flatMap_eq _ _ y _ hsome ys hy hnone]
  exact melt_row_value df ys h1 y (df.cellOf r0 y) r0

theorem flatMap_blocks_getD {α β : Type} (f : β → List α) (n : Nat)
    (hlen : ∀ y, (f y).length = n) (d : α) (db : β) :
    ∀ (ys : List β) (j i : Nat), j < ys.length → i < n →
      (ys.flatMap (fun y => f y)).getD (j * n + i) d = (f (ys.getD j db)).getD i d := by
  intro ys
  induction ys with
  | nil => intro j i hj _; simp at hj
  | cons y rest ih =>
      intro j i hj hi
      rw [List.flatMap_cons]
      cases j with
      | zero =>
          rw [Nat.zero_mul, Nat.zero_add]
          exact List.getD_append _ _ _ _ (by rw [hlen y]; exact hi)
      | succ j' =>
          have harith : (j' + 1) * n + i = (f y).length + (j' * n + i) := by
            rw [hlen y, Nat.succ_mul]
            omega
          rw [harith,
            List.getD_append_right _ _ _ _ (Nat.le_add_right _ _),
            Nat.add_sub_cancel_left]
          exact ih j' i (by simpa using hj) hi

theorem getD_cons5 {α : Type} (a b c d e : α) (l : List α) (m : Nat) (x : α) :
    (a :: b :: c :: d :: e :: l).getD (5 + m) x = l.getD m x := by
  rw [show 5 + m = m + 1 + 1 + 1 + 1 + 1 from by omega]
  simp [List.getD_cons_succ]

theorem row_decomp (df : DF) (ys : List Val) (h1 : df.header = expected5 ++ ys)
    (hnd : df.header.Nodup) (hwf : df.WF) (r : List Val) (hr : r ∈ df.rows) :
    keyOf df expected5 r ++ ys.map (fun y => df.cellOf r y) = r := by
  have hcol : ∀ c ∈ expected5, df.colIdx c = List.indexOf c expected5 := by
    intro c hc
    unfold DF.colIdx
    rw [h1]
    exact List.indexOf_append_of_mem hc
  have hnodys : ys.Nodup := by
    rw [h1] at hnd
    exact (List.nodup_append.mp hnd).2.1
  have hdisj : List.Disjoint expected5 ys := by
    rw [h1] at hnd
    exact List.disjoint_of_nodup_append hnd
  have hlen : r.length = 5 + ys.length := by
    rw [hwf r hr, h1, List.length_append]
    rfl
  rcases r with _ | ⟨a, _ | ⟨b, _ | ⟨c, _ | ⟨d, _ | ⟨e, rest⟩⟩⟩⟩⟩ <;>
    try (simp at hlen; omega)
  have hrest : rest.length = ys.length := by
    simp at hlen
    omega
  have hM := hcol (Val.vStr "Model") (by decide)
  have hS := hcol (Val.vStr "Scenario") (by decide)
  have hR := hcol (Val.vStr "Region") (by decide)
  have hV := hcol (Val.vStr "Variable") (by decide)
  have hU := hcol (Val.vStr "Unit") (by decide)
  have hkey : keyOf df expected5 (a :: b :: c :: d :: e :: rest) = [a, b, c, d, e] := by
    show [df.cellOf _ (Val.vStr "Model"), df.cellOf _ (Val.vStr "Scenario"),
      df.cellOf _ (Val.vStr "Region"), df.cellOf _ (Val.vStr "Variable"),
      df.cellOf _ (Val.vStr "Unit")] = _
    unfold DF.cellOf
    rw [hM, hS, hR, hV, hU]
    rfl
  have hdrop : ys.map (fun y => df.cellOf (a :: b :: c :: d :: e :: rest) y) = rest := by
    apply List.ext_getElem
    · rw [List.length_map, hrest]
    · intro m hm1 hm2
      rw [List.getElem_map]
      have hmys : m < ys.length := by
        rw [List.length_map] at hm1
        exact hm1
      have hynotin : ys[m] ∉ expected5 := fun hmem =>
        hdisj hmem (List.getElem_mem hmys)
      show df.cellOf _ ys[m] = rest[m]
      unfold DF.cellOf DF.colIdx
      rw [h1, List.indexOf_append_of_not_mem hynotin,
        List.indexOf_getElem hnodys m hmys]
      rw [show expected5.length + m = 5 + m from rfl, getD_cons5]
      exact List.getD_eq_getElem rest Val.vNaN hm2
  rw [hkey, hdrop]
  rfl

/-- C4: for every wide IAMC table (the five identifier columns followed by
its year columns, labels duplicate-free, year labels ascending, rows
well-formed with distinct identifier tuples, table non-degenerate), the
Long-Format Transformer emits exactly one output row per (input row,
value column) pair — row `j*n + i` carries input row i's identifier
cells, Year = the j-th value-column label, and Value = that cell — and
pivoting the long output back on Year reproduces the original wide
table: same header, and the same rows up to the pivot's key ordering. -/
theorem c4_melt_roundtrip (df : DF) (ys : List Val)
    (h1 : df.header = expected5 ++ ys)
    (hnd : df.header.Nodup)
    (hwf : df.WF)
    (hys : ys ≠ [])
    (hrows : df.rows ≠ [])
    (hsorted : List.Pairwise (fun a b => Val.ltb a b = true) ys)
    (htup : (df.rows.map (fun r => keyOf df expected5 r)).Nodup) :
    (meltDF df).nrows = df.nrows * ys.length ∧
    (∀ j i, j < ys.length → i < df.nrows →
      (meltDF df).rows.getD (j * df.nrows + i) [] =
        keyOf df expected5 (df.rows.getD i []) ++
          [ys.getD j Val.vNaN,
            df.cellOf (df.rows.getD i []) (ys.getD j Val.vNaN)]) ∧
    (pivotFull (meltDF df) expected5 (Val.vStr "Year") (Val.vStr "Value")).header =
      df.header ∧
    List.Perm
      (pivotFull (meltDF df) expected5 (Val.vStr "Year") (Val.vStr "Value")).rows
      df.rows := by
  refine ⟨?_, ?_, ?_, ?_⟩
  · show (meltDF df).rows.length = df.nrows * ys.length
    rw [melt_rows_eq df ys h1 hnd, List.length_flatMap]
    have hconst : List.map (List.length ∘ (fun y => df.rows.map (fun r =>
        (meltIdVars df).map (fun c => df.cellOf r c) ++ [y, df.cellOf r y]))) ys =
        List.replicate ys.length df.nrows := by
      rw [show (List.length ∘ (fun y => df.rows.map (fun r =>
          (meltIdVars df).map (fun c => df.cellOf r c) ++ [y, df.cellOf r y]))) =
          (fun (_ : Val) => df.nrows) from funext (fun y => by
        simp [Function.comp, DF.nrows])]
      exact List.map_const' ys df.nrows
    rw [hconst, List.sum_replicate, smul_eq_mul, Nat.mul_comm]
  · intro j i hj hi
    rw [melt_rows_eq df ys h1 hnd]
    rw [flatMap_blocks_getD _ df.nrows (fun y => by simp [DF.nrows]) [] Val.vNaN
      ys j i hj hi]
    rw [map_getD _ df.rows i hi [] []]
    rw [meltIdVars_eq df ys h1]
    rfl
  · show expected5 ++ pivotYears (meltDF df) (Val.vStr "Year") = df.header
    rw [melt_pivotYears df ys h1 hnd hsorted hrows, h1]
  · show ((pivotKeys (meltDF df) expected5).map (fun k =>
      k ++ (pivotYears (meltDF df) (Val.vStr "Year")).map
        (pivotCell (meltDF df) expected5 (Val.vStr "Year") (Val.vStr "Value") k))).Perm
      df.rows
    rw [melt_pivotKeys df ys h1 hnd hys,
      melt_pivotYears df ys h1 hnd hsorted hrows]
    have hperm := sortDedupBy_perm keyLtb keyLtb_trans keyLtb_irrefl keyLtb_connex
      (df.rows.map (fun r => keyOf df expected5 r)) htup
    have hmap := hperm.map (fun k =>
      k ++ ys.map (pivotCell (meltDF df) expected5 (Val.vStr "Year") (Val.vStr "Value") k))
    refine hmap.trans ?_
    rw [List.map_map]
    have heq : df.rows.map ((fun k =>
        k ++ ys.map (pivotCell (meltDF df) expected5 (Val.vStr "Year")
          (Val.vStr "Value") k)) ∘ (fun r => keyOf df expected5 r)) = df.rows := by
      have hpt : ∀ r ∈ df.rows, keyOf df expected5 r ++
          ys.map (pivotCell (meltDF df) expected5 (Val.vStr "Year") (Val.vStr "Value")
            (keyOf df expected5 r)) = r := by
        intro r hr
        have hcells : ys.map (pivotCell (meltDF df) expected5 (Val.vStr "Year")
            (Val.vStr "Value") (keyOf df expected5 r)) =
            ys.map (fun y => df.cellOf r y) :=
          List.map_congr_left (fun y hy => melt_pivotCell df ys h1 hnd htup r hr y hy)
        rw [hcells]
        exact row_decomp df ys h1 hnd hwf r hr
      calc df.rows.map ((fun k => k ++ ys.map (pivotCell (meltDF df) expected5
            (Val.vStr "Year") (Val.vStr "Value") k)) ∘ (fun r => keyOf df expected5 r))
          = df.rows.map id := List.map_congr_left (fun r hr => hpt r hr)
        _ = df.rows := List.map_id _
    rw [heq]

theorem c4_melt_roundtrip_witness :
    (⟨expected5 ++ [Val.vInt 2010, Val.vInt 2020],
      [[Val.vStr "m", Val.vStr "s", Val.vStr "r", Val.vStr "v", Val.vStr "u",
        Val.vInt 5, Val.vInt 7]]⟩ : DF).header =
        expected5 ++ [Val.vInt 2010, Val.vInt 2020] ∧
    (⟨expected5 ++ [Val.vInt 2010, Val.vInt 2020],
      [[Val.vStr "m", Val.vStr "s", Val.vStr "r", Val.vStr "v", Val.vStr "u",
        Val.vInt 5, Val.vInt 7]]⟩ : DF).header.Nodup ∧
    (⟨expected5 ++ [Val.vInt 2010, Val.vInt 2020],
      [[Val.vStr "m", Val.vStr "s", Val.vStr "r", Val.vStr "v", Val.vStr "u",
        Val.vInt 5, Val.vInt 7]]⟩ : DF).WF ∧
    ([Val.vInt 2010, Val.vInt 2020] : List Val) ≠ [] ∧
    (⟨expected5 ++ [Val.vInt 2010, Val.vInt 2020],
      [[Val.vStr "m", Val.vStr "s", Val.vStr "r", Val.vStr "v", Val.vStr "u",
        Val.vInt 5, Val.vInt 7]]⟩ : DF).rows ≠ [] ∧
    List.Pairwise (fun a b => Val.ltb a b = true)
      [Val.vInt 2010, Val.vInt 2020] ∧
    ((⟨expected5 ++ [Val.vInt 2010, Val.vInt 2020],
      [[Val.vStr "m", Val.vStr "s", Val.vStr "r", Val.vStr "v", Val.vStr "u",
        Val.vInt 5, Val.vInt 7]]⟩ : DF).rows.map
      (fun r => keyOf (⟨expected5 ++ [Val.vInt 2010, Val.vInt 2020],
        [[Val.vStr "m", Val.vStr "s", Val.vStr "r", Val.vStr "v", Val.vStr "u",
          Val.vInt 5, Val.vInt 7]]⟩ : DF) expected5 r)).Nodup ∧
    ((meltDF ⟨expected5 ++ [Val.vInt 2010, Val.vInt 2020],
      [[Val.vStr "m", Val.vStr "s", Val.vStr "r", Val.vStr "v", Val.vStr "u",
        Val.vInt 5, Val.vInt 7]]⟩).nrows =
      (⟨expected5 ++ [Val.vInt 2010, Val.vInt 2020],
        [[Val.vStr "m", Val.vStr "s", Val.vStr "r", Val.vStr "v", Val.vStr "u",
          Val.vInt 5, Val.vInt 7]]⟩ : DF).nrows *
        ([Val.vInt 2010, Val.vInt 2020] : List Val).length ∧
    (∀ j i, j < ([Val.vInt 2010, Val.vInt 2020] : List Val).length →
      i < (⟨expected5 ++ [Val.vInt 2010, Val.vInt 2020],
        [[Val.vStr "m", Val.vStr "s", Val.vStr "r", Val.vStr "v", Val.vStr "u",
          Val.vInt 5, Val.vInt 7]]⟩ : DF).nrows →
      (meltDF ⟨expected5 ++ [Val.vInt 2010, Val.vInt 2020],
        [[Val.vStr "m", Val.vStr "s", Val.vStr "r", Val.vStr "v", Val.vStr "u",
          Val.vInt 5, Val.vInt 7]]⟩).rows.getD
          (j * (⟨expected5 ++ [Val.vInt 2010, Val.vInt 2020],
            [[Val.vStr "m", Val.vStr "s", Val.vStr "r", Val.vStr "v", Val.vStr "u",
              Val.vInt 5, Val.vInt 7]]⟩ : DF).nrows + i) [] =
        keyOf (⟨expected5 ++ [Val.vInt 2010, Val.vInt 2020],
          [[Val.vStr "m", Val.vStr "s", Val.vStr "r", Val.vStr "v", Val.vStr "u",
            Val.vInt 5, Val.vInt 7]]⟩ : DF) expected5
          ((⟨expected5 ++ [Val.vInt 2010, Val.vInt 2020],
            [[Val.vStr "m", Val.vStr "s", Val.vStr "r", Val.vStr "v", Val.vStr "u",
              Val.vInt 5, Val.vInt 7]]⟩ : DF).rows.getD i []) ++
          [([Val.vInt 2010, Val.vInt 2020] : List Val).getD j Val.vNaN,
            (⟨expected5 ++ [Val.vInt 2010, Val.vInt 2020],
              [[Val.vStr "m", Val.vStr "s", Val.vStr "r", Val.vStr "v", Val.vStr "u",
                Val.vInt 5, Val.vInt 7]]⟩ : DF).cellOf
              ((⟨expected5 ++ [Val.vInt 2010, Val.vInt 2020],
                [[Val.vStr "m", Val.vStr "s", Val.vStr "r", Val.vStr "v", Val.vStr "u",
                  Val.vInt 5, Val.vInt 7]]⟩ : DF).rows.getD i [])
              (([Val.vInt 2010, Val.vInt 2020] : List Val).getD j Val.vNaN)]) ∧
    (pivotFull (meltDF ⟨expected5 ++ [Val.vInt 2010, Val.vInt 2020],
      [[Val.vStr "m", Val.vStr "s", Val.vStr "r", Val.vStr "v", Val.vStr "u",
        Val.vInt 5, Val.vInt 7]]⟩) expected5 (Val.vStr "Year")
        (Val.vStr "Value")).header =
      (⟨expected5 ++ [Val.vInt 2010, Val.vInt 2020],
        [[Val.vStr "m", Val.vStr "s", Val.vStr "r", Val.vStr "v", Val.vStr "u",
          Val.vInt 5, Val.vInt 7]]⟩ : DF).header ∧
    List.Perm
      (pivotFull (meltDF ⟨expected5 ++ [Val.vInt 2010, Val.vInt 2020],
        [[Val.vStr "m", Val.vStr "s", Val.vStr "r", Val.vStr "v", Val.vStr "u",
          Val.vInt 5, Val.vInt 7]]⟩) expected5 (Val.vStr "Year")
          (Val.vStr "Value")).rows
      (⟨expected5 ++ [Val.vInt 2010, Val.vInt 2020],
        [[Val.vStr "m", Val.vStr "s", Val.vStr "r", Val.vStr "v", Val.vStr "u",
          Val.vInt 5, Val.vInt 7]]⟩ : DF).rows) :=
  ⟨rfl, by decide,
    by
      show ∀ r ∈ (⟨expected5 ++ [Val.vInt 2010, Val.vInt 2020],
        [[Val.vStr "m", Val.vStr "s", Val.vStr "r", Val.vStr "v", Val.vStr "u",
          Val.vInt 5, Val.vInt 7]]⟩ : DF).rows,
        r.length = (⟨expected5 ++ [Val.vInt 2010, Val.vInt 2020],
          [[Val.vStr "m", Val.vStr "s", Val.vStr "r", Val.vStr "v", Val.vStr "u",
            Val.vInt 5, Val.vInt 7]]⟩ : DF).header.length
      decide,
    by decide, by decide, by decide, by decide,
    c4_melt_roundtrip
      ⟨expected5 ++ [Val.vInt 2010, Val.vInt 2020],
        [[Val.vStr "m", Val.vStr "s", Val.vStr "r", Val.vStr "v", Val.vStr "u",
          Val.vInt 5, Val.vInt 7]]⟩
      [Val.vInt 2010, Val.vInt 2020]
      rfl (by decide)
      (by
        show ∀ r ∈ (⟨expected5 ++ [Val.vInt 2010, Val.vInt 2020],
          [[Val.vStr "m", Val.vStr "s", Val.vStr "r", Val.vStr "v", Val.vStr "u",
            Val.vInt 5, Val.vInt 7]]⟩ : DF).rows,
          r.length = (⟨expected5 ++ [Val.vInt 2010, Val.vInt 2020],
            [[Val.vStr "m", Val.vStr "s", Val.vStr "r", Val.vStr "v", Val.vStr "u",
              Val.vInt 5, Val.vInt 7]]⟩ : DF).header.length
        decide)
      (by decide) (by decide) (by decide) (by decide)⟩
